import Mathlib

/-!
Shallow embedding of the SQL generation/optimization pipeline of the
GenQuery-AI repository (src/sql_validator.py and src/langchain_agent.py),
together with theorems settling the frozen claims about it.

Python strings are modelled as Lean String / List Char.  Whitespace,
upper/lower casing and regex word characters are modelled over the ASCII
fragment (the ASCII whitespace characters, ASCII case mapping, and
[A-Za-z0-9_] word characters), which is the common subset of the Python
semantics actually exercised by the program on SQL text.
-/

/-- The six ASCII whitespace characters stripped by str.strip() and matched
by the regex class backslash-s. -/
def pyIsSpace (c : Char) : Bool :=
  c = ' ' || c = '\t' || c = '\n' || c = '\r' || c = Char.ofNat 11 || c = Char.ofNat 12

/-- Regex word character (ASCII fragment of the Python re word class). -/
def isWordChar (c : Char) : Bool := c.isAlphanum || c = '_'

/-- The backtick character. -/
def btick : Char := Char.ofNat 96

/-- Drop the characters satisfying p from both ends of a list
(the semantics of Python str.strip with a character class). -/
def stripEnds (p : Char → Bool) (l : List Char) : List Char :=
  ((l.dropWhile p).reverse.dropWhile p).reverse

/-- Python str.strip() on a character list. -/
def pyStripL (l : List Char) : List Char := stripEnds pyIsSpace l

/-- Python s.strip() on a String. -/
def pyStrip (s : String) : String := String.mk (pyStripL s.data)

/-- Python s.split(";") on a character list: the list of segments between
semicolons (an empty input yields one empty segment, as in Python). -/
def splitSemi : List Char → List (List Char)
  | [] => [[]]
  | c :: rest =>
    if c = ';' then [] :: splitSemi rest
    else
      match splitSemi rest with
      | [] => [[c]]
      | p :: ps => (c :: p) :: ps

/-- Whether pat occurs as a contiguous sublist (Python substring test). -/
def hasSub (pat : List Char) : List Char → Bool
  | [] => pat.isPrefixOf ([] : List Char)
  | s@(_ :: rest) => pat.isPrefixOf s || hasSub pat rest

/-- Index of the first occurrence of pat (Python str.find when found). -/
def findSub (pat : List Char) : List Char → Option Nat
  | [] => if pat = [] then some 0 else none
  | s@(_ :: rest) =>
    if pat.isPrefixOf s then some 0
    else (findSub pat rest).map (· + 1)

/-! ## src/sql_validator.py -/

/-- State machine for re.sub("--.*", "", sql), fuelled for kernel
computability: when the flag is true we are inside a line comment and drop
characters up to (excluding) the next newline.  The dot of the regex does
not match a newline, so the newline itself is kept. -/
def stripLineGoF : Nat → Bool → List Char → List Char
  | 0, _, l => l
  | _ + 1, _, [] => []
  | fuel + 1, true, c :: rest =>
    if c = '\n' then c :: stripLineGoF fuel false rest
    else stripLineGoF fuel true rest
  | fuel + 1, false, c :: rest =>
    if c = '-' then
      match rest with
      | [] => [c]
      | d :: rest2 =>
        if d = '-' then stripLineGoF fuel true rest2
        else c :: stripLineGoF fuel false rest
    else c :: stripLineGoF fuel false rest

/-- Remove line comments (fuel is always sufficient: one unit per step). -/
def stripLine (l : List Char) : List Char := stripLineGoF (l.length + 1) false l

/-- Drop characters up to and including the first close marker of a block
comment; none when no close marker occurs. -/
def dropToClose : List Char → Option (List Char)
  | [] => none
  | '*' :: '/' :: rest => some rest
  | _ :: rest => dropToClose rest

/-- re.sub of non-greedy block comments, fuelled: each open marker with a
later close marker is removed up to the first close marker; scanning
resumes after the removed span (spliced text is not rescanned, matching
re.sub). -/
def stripBlockGoF : Nat → List Char → List Char
  | 0, l => l
  | _ + 1, [] => []
  | fuel + 1, c :: rest =>
    if c = '/' then
      match rest with
      | [] => [c]
      | d :: rest2 =>
        if d = '*' then
          match dropToClose rest2 with
          | some rest3 => stripBlockGoF fuel rest3
          | none => c :: d :: rest2
        else c :: stripBlockGoF fuel rest
    else c :: stripBlockGoF fuel rest

/-- Remove block comments. -/
def stripBlock (l : List Char) : List Char := stripBlockGoF (l.length + 1) l

/-- sanitize_sql from src/sql_validator.py: remove line comments, remove
block comments, split on semicolons, return the first non-empty stripped
segment (or the empty string). -/
def sanitize_sql (sql : String) : String :=
  let s2 := stripBlock (stripLine sql.data)
  let parts := ((splitSemi s2).map pyStripL).filter (· ≠ [])
  String.mk (parts.headD [])

/-- Whether the word w (all word characters) occurs at the head of s with a
regex word boundary on both sides, given the previous character. -/
def wordHitHere (w : List Char) (prev : Option Char) (s : List Char) : Bool :=
  (match prev with
   | none => true
   | some p => !isWordChar p) &&
  (match s.drop w.length with
   | [] => w.isPrefixOf s
   | c :: _ => w.isPrefixOf s && !isWordChar c)

/-- re.search of a word-bounded literal word: scan every position. -/
def wordSearch (w : List Char) : Option Char → List Char → Bool
  | _, [] => false
  | prev, s@(c :: rest) => wordHitHere w prev s || wordSearch w (some c) rest

/-- contains_dangerous from src/sql_validator.py: uppercase the input and
search for the word-bounded literals DELETE and UPDATE. -/
def contains_dangerous (sql : String) : Bool :=
  let u := sql.data.map Char.toUpper
  wordSearch "DELETE".data none u || wordSearch "UPDATE".data none u

/-- validate_sql_safe from src/sql_validator.py. -/
def validate_sql_safe (sql : String) : Bool × String :=
  let clean := sanitize_sql sql
  if clean = "" then (false, "SQL is empty after sanitization.")
  else if contains_dangerous clean then
    (false, "Statement contains a blocked keyword (DELETE/UPDATE).")
  else (true, "")

/-! ## A small backtracking regex engine

The heuristic optimizer in src/langchain_agent.py is a sequence of Python
re.sub / re.search applications (all with IGNORECASE, some with DOTALL).
Each pattern used there is built from literals, character classes and
class repetitions, word boundaries, negative lookahead and groups, so the
engine below supports exactly those constructs with the backtracking
priority of the Python engine (greedy prefers longer, lazy prefers
shorter, leftmost match wins); literals match case-insensitively. -/

/-- Captured groups: group index paired with captured characters. -/
abbrev Caps := List (Nat × List Char)

/-- Match state passed to continuations: previous character, remaining
input, captures. -/
abbrev MState := Option Char × List Char × Caps

inductive RE where
  | eps : RE
  | cls : (Char → Bool) → RE
  | lit : List Char → RE
  | seq : RE → RE → RE
  | starC : (Char → Bool) → Bool → RE
  | bnd : RE
  | nla : RE → RE
  | grp : Nat → RE → RE

/-- Word-character test of the optional previous character. -/
def isWordOpt : Option Char → Bool
  | none => false
  | some c => isWordChar c

/-- Word-character test of the head of the remaining input. -/
def headWord : List Char → Bool
  | [] => false
  | c :: _ => isWordChar c

/-- Consume a literal case-insensitively, then call the continuation. -/
def litRun : List Char → Option Char → List Char → Caps →
    (Option Char → List Char → Caps → Option MState) → Option MState
  | [], prev, s, caps, k => k prev s caps
  | c :: cs, _, s, caps, k =>
    match s with
    | [] => none
    | d :: rest =>
      if c.toLower = d.toLower then litRun cs (some d) rest caps k else none

/-- Repetition of a character class with backtracking: greedy tries the
longer extension first, lazy tries the continuation first. -/
def starRun (p : Char → Bool) (lazy : Bool) : Option Char → List Char → Caps →
    (Option Char → List Char → Caps → Option MState) → Option MState
  | prev, s, caps, k =>
    if lazy then
      match k prev s caps with
      | some r => some r
      | none =>
        match s with
        | [] => none
        | c :: rest => if p c then starRun p lazy (some c) rest caps k else none
    else
      match s with
      | [] => k prev s caps
      | c :: rest =>
        if p c then
          match starRun p lazy (some c) rest caps k with
          | some r => some r
          | none => k prev s caps
        else k prev s caps

/-- CPS matcher with Python backtracking priority. -/
def reRun : RE → Option Char → List Char → Caps →
    (Option Char → List Char → Caps → Option MState) → Option MState
  | .eps, prev, s, caps, k => k prev s caps
  | .cls p, _, s, caps, k =>
    match s with
    | [] => none
    | c :: rest => if p c then k (some c) rest caps else none
  | .lit w, prev, s, caps, k => litRun w prev s caps k
  | .seq a b, prev, s, caps, k =>
    reRun a prev s caps (fun p2 s2 c2 => reRun b p2 s2 c2 k)
  | .starC p lz, prev, s, caps, k => starRun p lz prev s caps k
  | .bnd, prev, s, caps, k =>
    if isWordOpt prev != headWord s then k prev s caps else none
  | .nla r, prev, s, caps, k =>
    match reRun r prev s caps (fun p2 s2 c2 => some (p2, s2, c2)) with
    | some _ => none
    | none => k prev s caps
  | .grp i r, prev, s, caps, k =>
    reRun r prev s caps (fun p2 s2 c2 =>
      k p2 s2 ((i, s.take (s.length - s2.length)) :: c2))

/-- Attempt a match anchored at the current position. -/
def reMatchAt (r : RE) (prev : Option Char) (s : List Char) : Option MState :=
  reRun r prev s [] (fun p2 s2 c2 => some (p2, s2, c2))

/-- re.search: try every start position left to right. -/
def reSearchGo (r : RE) : Option Char → List Char → Bool
  | prev, s =>
    match reMatchAt r prev s with
    | some _ => true
    | none =>
      match s with
      | [] => false
      | c :: rest => reSearchGo r (some c) rest

def reSearch (r : RE) (l : List Char) : Bool := reSearchGo r none l

/-- Contents of a captured group (most recent capture wins, as each group
captures once per match in the patterns used here). -/
def capGet (i : Nat) (caps : Caps) : List Char :=
  match caps.find? (fun pr => pr.1 = i) with
  | some pr => pr.2
  | none => []

/-- re.sub: replace every leftmost non-overlapping match, resuming after
the end of each match.  Fuelled for kernel computability; every pattern
used here consumes at least one character per match, so fuel suffices. -/
def reSubGo (r : RE) (repl : Caps → List Char) : Nat → Option Char → List Char → List Char
  | 0, _, s => s
  | fuel + 1, prev, s =>
    match reMatchAt r prev s with
    | some (p2, s2, caps) =>
      if s.length - s2.length = 0 then
        match s with
        | [] => []
        | c :: rest => c :: reSubGo r repl fuel (some c) rest
      else repl caps ++ reSubGo r repl fuel p2 s2
    | none =>
      match s with
      | [] => []
      | c :: rest => c :: reSubGo r repl fuel (some c) rest

def reSubAll (r : RE) (repl : Caps → List Char) (l : List Char) : List Char :=
  reSubGo r repl (l.length + 1) none l

/-! ## The heuristic optimizer (src/langchain_agent.py, _heuristic_optimize_sql) -/

def reLit (s : String) : RE := .lit s.data

/-- Whitespace repetition: the regex class backslash-s starred. -/
def wsStar : RE := .starC pyIsSpace false

/-- At least one whitespace character. -/
def reWS1 : RE := .seq (.cls pyIsSpace) wsStar

/-- Greedy dot-star under DOTALL. -/
def anyStarG : RE := .starC (fun _ => true) false

/-- Lazy dot-star under DOTALL. -/
def anyStarL : RE := .starC (fun _ => true) true

/-- One or more characters other than a right parenthesis. -/
def notRPplus : RE := .seq (.cls (fun c => c != ')')) (.starC (fun c => c != ')') false)

def ddRE : RE :=
  .seq .bnd (.seq (reLit "DISTINCT") (.seq reWS1 (.seq (reLit "DISTINCT") .bnd)))

def selDistRE : RE := .seq (reLit "SELECT") (.seq reWS1 (reLit "DISTINCT"))

def parenSelDistRE : RE :=
  .seq (reLit "(") (.seq wsStar (.seq (reLit "SELECT")
    (.seq reWS1 (.seq (reLit "DISTINCT") .bnd))))

def withWordRE : RE := .seq .bnd (.seq (reLit "WITH") .bnd)

def finalOrderRE : RE :=
  .seq .bnd (.seq (reLit "SELECT") (.seq .bnd (.seq anyStarG
    (.seq .bnd (.seq (reLit "ORDER") (.seq reWS1 (.seq (reLit "BY") .bnd)))))))

def orderByClause : RE :=
  .seq (reLit "ORDER") (.seq reWS1 (.seq (reLit "BY") (.seq reWS1 notRPplus)))

def innerOrdRE : RE :=
  .seq (.grp 1 (.seq (reLit "SELECT") (.seq .bnd anyStarL)))
    (.seq (.grp 2 orderByClause) (.grp 3 (reLit ")")))

def withSubRE : RE :=
  .seq (reLit "WITH") (.seq reWS1 (.seq (.grp 1 anyStarG)
    (.seq .bnd (.seq (reLit "SELECT") .bnd))))

def topAheadRE : RE := .seq anyStarL (.seq .bnd (.seq (reLit "TOP") .bnd))

def limitAheadRE : RE := .seq anyStarL (.seq .bnd (.seq (reLit "LIMIT") .bnd))

def subqOrdRE : RE :=
  .seq (reLit "(") (.seq wsStar (.seq (reLit "SELECT") (.seq .bnd
    (.seq (.nla topAheadRE) (.seq (.nla limitAheadRE)
      (.seq (.grp 1 anyStarL) (.seq (.grp 2 orderByClause) (.grp 3 (reLit ")")))))))))

/-- The balance scan of the wrapping-parentheses rule: walking the string,
a closing parenthesis that brings the depth to zero before the final
character means the outer pair does not wrap the whole statement. -/
def balScan : Int → List Char → Bool
  | _, [] => true
  | d, c :: rest =>
    let d2 : Int := if c = '(' then d + 1 else if c = ')' then d - 1 else d
    if c = ')' ∧ d2 = 0 ∧ rest ≠ [] then false else balScan d2 rest

/-- Rule 1: remove one layer of fully wrapping parentheses, then strip. -/
def parenStripL (w : List Char) : List Char :=
  match w with
  | '(' :: _ =>
    if w.getLast? = some ')' then
      if balScan 0 w then pyStripL (w.drop 1).dropLast else w
    else w
  | _ => w

/-- Rule 2: collapse doubled DISTINCT (one re.sub pass). -/
def hstep2 (w : List Char) : List Char := reSubAll ddRE (fun _ => "DISTINCT".data) w

/-- Rule 3: when the text matches SELECT-whitespace-DISTINCT somewhere,
drop DISTINCT from subquery openings. -/
def hstep3 (w : List Char) : List Char :=
  if reSearch selDistRE w then reSubAll parenSelDistRE (fun _ => "(SELECT".data) w
  else w

/-- Everything after the last closing parenthesis (Python split on the
closing parenthesis, last element). -/
def lastAfterRParen (l : List Char) : List Char :=
  (l.reverse.takeWhile (· ≠ ')')).reverse

/-- The inner helper of rule 4: remove ORDER BY clauses that end at a
closing parenthesis from a CTE segment. -/
def stripInnerOrderBy (seg : List Char) : List Char :=
  reSubAll innerOrdRE (fun caps => capGet 1 caps ++ capGet 3 caps) seg

/-- Rule 4: when the statement uses WITH and the text after the last
closing parenthesis still has SELECT followed by ORDER BY, strip ORDER BY
clauses inside the CTE region. -/
def hstep4 (w : List Char) : List Char :=
  if reSearch withWordRE w then
    if reSearch finalOrderRE (lastAfterRParen w) then
      reSubAll withSubRE
        (fun caps => "WITH ".data ++ stripInnerOrderBy (capGet 1 caps) ++ "SELECT".data) w
    else w
  else w

/-- Rule 5: strip ORDER BY from parenthesized subqueries not followed
anywhere later by TOP or LIMIT. -/
def hstep5 (w : List Char) : List Char :=
  reSubAll subqOrdRE (fun caps => "(SELECT".data ++ capGet 1 caps ++ ")".data) w

/-- The heuristic optimizer from src/langchain_agent.py: strip, apply the
five rewrite rules in order, return the original object when the result is
textually unchanged. -/
def _heuristic_optimize_sql (sql : String) : String :=
  let original := sql.data
  let work := hstep5 (hstep4 (hstep3 (hstep2 (parenStripL (pyStripL original)))))
  if work ≠ original then String.mk work else String.mk original

/-! ## The optimization orchestrator (src/langchain_agent.py, optimize_sql)

The LLM call chain inside optimize_sql is external and nondeterministic;
it is modelled by an oracle of type Option String: some raw is the text
produced by a successful model attempt (the value of the generated
variable before the final strip calls of the inner helper), none is any
exception raised inside the try block (model failures, quota exhaustion,
network errors).  Everything deterministic around the oracle is translated
from the source. -/

/-- Results of the orchestrators are Except values; equality of such
values is decidable componentwise. -/
instance exceptStrDecEq : DecidableEq (Except String String) := fun a b =>
  match a, b with
  | .ok x, .ok y =>
    if h : x = y then isTrue (by rw [h])
    else isFalse (fun hc => h (Except.ok.inj hc))
  | .error x, .error y =>
    if h : x = y then isTrue (by rw [h])
    else isFalse (fun hc => h (Except.error.inj hc))
  | .ok _, .error _ => isFalse (fun hc => Except.noConfusion hc)
  | .error _, .ok _ => isFalse (fun hc => Except.noConfusion hc)

/-- Python x.strip().strip(backtick): whitespace first, then backticks. -/
def cleanInput (x : String) : String :=
  String.mk (stripEnds (fun c => c = btick) (pyStripL x.data))

/-- Keep only the first statement when a semicolon occurs: split on
semicolons and keep the first non-empty stripped part; when every part is
empty the string is left unchanged (the Python code only reassigns when
the filtered list is non-empty). -/
def firstStmtPy (s : String) : String :=
  if s.data.contains ';' then
    match ((splitSemi s.data).map pyStripL).filter (· ≠ []) with
    | p :: _ => String.mk p
    | [] => s
  else s

/-- Python s.lower().replace(" ", ""): lowercase, remove space characters. -/
def noSpaceLower (s : String) : List Char :=
  (s.data.map Char.toLower).filter (· ≠ ' ')

/-- Trim leading commentary: find the first occurrence of each of the four
query-start keywords in the lowercased text; when the smallest found
position is positive, drop everything before it and strip. -/
def trimToQueryStart (s : String) : String :=
  let lower := s.data.map Char.toLower
  let ps := (["select".data, "with".data, "(select".data, "(with".data]).filterMap
    (fun kw => findSub kw lower)
  match ps.min? with
  | some m => if 0 < m then String.mk (pyStripL (s.data.drop m)) else s
  | none => s

/-- The post-processing applied to a successful LLM result before
validation: strip whitespace and backticks, keep the first statement, fall
back to the heuristic optimizer when the result is empty, shorter than 20
characters or equal to the cleaned input modulo case and spaces, then trim
leading commentary. -/
def optPost (raw cleaned : String) : String :=
  let optimized := cleanInput raw
  let optimized := firstStmtPy optimized
  let optimized :=
    if optimized = "" ∨ optimized.length < 20 ∨ noSpaceLower optimized = noSpaceLower cleaned
    then _heuristic_optimize_sql cleaned else optimized
  trimToQueryStart optimized

/-- The body of the try block of optimize_sql after a successful LLM
attempt returned raw: post-process, sanitize and validate, and fall back
to the cleaned input on rejection or a too-short result. -/
def optimizePipeline (raw cleaned : String) : String :=
  let sanitized := sanitize_sql (optPost raw cleaned)
  if (validate_sql_safe sanitized).1 = true then
    if sanitized = "" ∨ sanitized.length < 20 then cleaned else sanitized
  else cleaned

/-- optimize_sql from src/langchain_agent.py.  The two guard raises sit
outside the try block and so escape to the caller (modelled as
Except.error); every exception inside the try block (the oracle value
none) is caught and the cleaned input is returned. -/
def optimize_sql (hasKey : Bool) (llm : Option String)
    (original_sql _schema_text : String) : Except String String :=
  if hasKey = false then .error "OPENAI_API_KEY missing"
  else
    let cleaned := cleanInput original_sql
    if cleaned = "" then .error "Empty SQL provided for optimization"
    else
      match llm with
      | none => .ok cleaned
      | some raw => .ok (optimizePipeline raw cleaned)

example : optimize_sql true none "" "" = .error "Empty SQL provided for optimization" := by decide
example : optimize_sql false none "SELECT a FROM t" "" = .error "OPENAI_API_KEY missing" := by decide
example : optimize_sql true (some "SELECT a, b, c FROM widgets WHERE a > 0")
    "SELECT * FROM widgets" "" = .ok "SELECT a, b, c FROM widgets WHERE a > 0" := by decide
example : optimize_sql true (some "DELETE FROM a_sufficiently_long_t")
    "  SELECT a FROM t  " "" = .ok "SELECT a FROM t" := by decide

/-! ## The generation orchestrator (src/langchain_agent.py, generate_sql)

Each provider adapter is modelled around an oracle for its external call:
for the OpenAI adapter an Except String String (ok raw is the winning
model text before post-processing, error e is the aggregated exception
message raised when every model attempt failed), for the secondary
adapters an Option String (some t is the extracted response text of the
first successful model, none is both the no-output case and any exception,
which those adapters swallow and convert to returning Python None). -/

/-- The markers the OpenAI except block looks for to classify an error as
a quota or rate-limit failure. -/
def isQuotaMsg (e : String) : Bool :=
  hasSub "insufficient_quota".data (e.data.map Char.toLower) ||
  hasSub "rate limit".data (e.data.map Char.toLower) ||
  hasSub "429".data (e.data.map Char.toLower)

/-- The outer except block of generate_sql_openai: quota-classified errors
are re-raised with remediation guidance, everything else unchanged. -/
def openaiWrap (e : String) : String :=
  if isQuotaMsg e then
    "OpenAI quota/rate limit error. Suggested remediation: obtain new credits, rotate API key, set FALLBACK_OPENAI_MODELS to cheaper models (e.g. gpt-3.5-turbo). Original: " ++ e
  else e

/-- generate_sql_openai from src/langchain_agent.py: strip whitespace and
backticks, keep the first non-empty statement, raise on empty output. -/
def generate_sql_openai (hasKey : Bool) (raw : Except String String) :
    Except String String :=
  if hasKey = false then .error "OPENAI_API_KEY missing"
  else
    match raw with
    | .error e => .error (openaiWrap e)
    | .ok t =>
      let sql := firstStmtPy (cleanInput t)
      if sql = "" then .error (openaiWrap "Empty SQL returned after attempts.")
      else .ok sql

/-- generate_sql_anthropic from src/langchain_agent.py: without a key
return None; on response text, return it stripped of whitespace and
backticks when non-empty; every exception is swallowed into None.  The
oracle value some t is the joined response text. -/
def generate_sql_anthropic (hasKey : Bool) (raw : Option String) : Option String :=
  if hasKey = false then none
  else
    match raw with
    | none => none
    | some t =>
      let sql := pyStrip t
      if sql = "" then none else some (cleanInput sql)

/-- generate_sql_gemini from src/langchain_agent.py: structurally the same
normalization as the Anthropic adapter. -/
def generate_sql_gemini (hasKey : Bool) (raw : Option String) : Option String :=
  if hasKey = false then none
  else
    match raw with
    | none => none
    | some t =>
      let sql := pyStrip t
      if sql = "" then none else some (cleanInput sql)

/-- The HuggingFace path cuts the response at the first occurrence of
select or with in the lowercased text (select tried first). -/
def llamaCut (s : String) : String :=
  let lower := s.data.map Char.toLower
  match findSub "select".data lower with
  | some p => String.mk (s.data.drop p)
  | none =>
    match findSub "with".data lower with
    | some p => String.mk (s.data.drop p)
    | none => s

/-- generate_sql_llama from src/langchain_agent.py: HuggingFace path (with
the select/with cut) first, then the Groq path; both swallow exceptions. -/
def generate_sql_llama (hfKey groqKey : Bool) (hfRaw groqRaw : Option String) :
    Option String :=
  let hfRes :=
    if hfKey then
      match hfRaw with
      | none => none
      | some t =>
        let sql := llamaCut (pyStrip t)
        if sql = "" then none else some (cleanInput sql)
    else none
  match hfRes with
  | some s => some s
  | none =>
    if groqKey then
      match groqRaw with
      | none => none
      | some t =>
        let sql := pyStrip t
        if sql = "" then none else some (cleanInput sql)
    else none

/-- Python join with the separator of the aggregated error message. -/
def joinSemiSp : List String → String
  | [] => ""
  | [a] => a
  | a :: rest => a ++ "; " ++ joinSemiSp rest

/-- An adapter result counts as a win only when it is non-empty (the
Python truthiness tests on the returned strings). -/
def nonEmptyOpt (o : Option String) : Option String :=
  match o with
  | some s => if s = "" then none else some s
  | none => none

/-- generate_sql from src/langchain_agent.py: ordered fallback over
LangChain (when enabled and a database URI is supplied), OpenAI,
Anthropic, Gemini and LLaMA; error entries are collected only from paths
that raise (the secondary adapters never do), and when nothing succeeds a
single aggregated error is raised. -/
def generate_sql (useLangchain hasDbUri : Bool) (lc : Except String String)
    (oKey : Bool) (oRaw : Except String String)
    (aKey : Bool) (aRaw : Option String)
    (gKey : Bool) (gRaw : Option String)
    (hfKey groqKey : Bool) (hfRaw groqRaw : Option String) :
    Except String String :=
  let st1 : Option String × List String :=
    if useLangchain ∧ hasDbUri then
      match lc with
      | .ok raw => (nonEmptyOpt (some (pyStrip raw)), [])
      | .error e => (none, ["LangChain:" ++ e])
    else (none, [])
  match st1 with
  | (some s, _) => .ok s
  | (none, errs1) =>
    let st2 : Option String × List String :=
      match generate_sql_openai oKey oRaw with
      | .ok s => (nonEmptyOpt (some s), errs1)
      | .error e => (none, errs1 ++ ["OpenAI:" ++ e])
    match st2 with
    | (some s, _) => .ok s
    | (none, errs2) =>
      match nonEmptyOpt (generate_sql_anthropic aKey aRaw) with
      | some s => .ok s
      | none =>
        match nonEmptyOpt (generate_sql_gemini gKey gRaw) with
        | some s => .ok s
        | none =>
          match nonEmptyOpt (generate_sql_llama hfKey groqKey hfRaw groqRaw) with
          | some s => .ok s
          | none =>
            let agg :=
              if errs2 = [] then "No providers produced output."
              else joinSemiSp errs2
            .error ("SQL generation failed across providers. Details: " ++ agg)

/-- Number of non-empty statements in the Python sense: split on
semicolons, strip each part, count the non-empty parts. -/
def numStatements (s : String) : Nat :=
  (((splitSemi s.data).map pyStripL).filter (· ≠ [])).length

/-! ## Concrete evaluations checked against the source semantics -/

example : sanitize_sql "SELECT 1; DROP TABLE t;" = "SELECT 1" := by decide
example : sanitize_sql "SELECT a -- c\nFROM t" = "SELECT a \nFROM t" := by decide
example : sanitize_sql "SELECT /* x */ a" = "SELECT  a" := by decide
example : sanitize_sql "-/*x*/-" = "--" := by decide
example : (validate_sql_safe "DELETE FROM t").1 = false := by decide
example : (validate_sql_safe "SELECT deleted FROM t").1 = true := by decide
example : (validate_sql_safe "SELECT 1; DELETE FROM t").1 = true := by decide

example : _heuristic_optimize_sql "(SELECT a FROM t)" = "SELECT a FROM t" := by decide
example : _heuristic_optimize_sql "SELECT DISTINCT DISTINCT a FROM t" =
    "SELECT DISTINCT a FROM t" := by decide
example : _heuristic_optimize_sql "DISTINCT DISTINCT DISTINCT" =
    "DISTINCT DISTINCT" := by decide
example : _heuristic_optimize_sql "DISTINCT DISTINCT" = "DISTINCT" := by decide
example : _heuristic_optimize_sql "SELECT * FROM (SELECT * FROM t ORDER BY a) sub" =
    "SELECT * FROM (SELECT * FROM t ) sub" := by decide
example : _heuristic_optimize_sql "SELECT * FROM (SELECT * FROM t ORDER BY a LIMIT 5) sub" =
    "SELECT * FROM (SELECT * FROM t ORDER BY a LIMIT 5) sub" := by decide
example : _heuristic_optimize_sql "SELECT DISTINCT x FROM (SELECT DISTINCT x FROM t)" =
    "SELECT DISTINCT x FROM (SELECT x FROM t)" := by decide
example : _heuristic_optimize_sql "WITH c AS (SELECT a FROM t ORDER BY a) SELECT * FROM c ORDER BY a" =
    "WITH c AS (SELECT a FROM t ) SELECT * FROM c ORDER BY a" := by decide
example : _heuristic_optimize_sql "  SELECT col FROM tbl  " = "SELECT col FROM tbl" := by decide

example : optimize_sql true none "  SELECT a FROM t  " "" = .ok "SELECT a FROM t" := by decide

example :
    generate_sql false false (.error "x") true (.ok "```SELECT region, COUNT(*) FROM orders GROUP BY region;```")
      false none false none false false none none =
    .ok "SELECT region, COUNT(*) FROM orders GROUP BY region" := by decide
example :
    generate_sql false false (.error "x") true (.error "boom")
      true (some "SELECT 1; DROP TABLE t") false none false false none none =
    .ok "SELECT 1; DROP TABLE t" := by decide

/-! ## Helper lemmas -/

theorem splitSemi_ne_nil (l : List Char) : splitSemi l ≠ [] := by
  induction l with
  | nil => simp [splitSemi]
  | cons c rest ih =>
    simp only [splitSemi]
    split
    · simp
    · cases h : splitSemi rest with
      | nil => exact absurd h ih
      | cons p ps => simp

theorem mem_splitSemi_no_semi (l : List Char) :
    ∀ p ∈ splitSemi l, ';' ∉ p := by
  induction l with
  | nil => intro p hp; simp [splitSemi] at hp; simp [hp]
  | cons c rest ih =>
    intro p hp
    simp only [splitSemi] at hp
    by_cases hc : c = ';'
    · rw [if_pos hc] at hp
      rcases List.mem_cons.mp hp with h | h
      · simp [h]
      · exact ih p h
    · rw [if_neg hc] at hp
      cases h : splitSemi rest with
      | nil => exact absurd h (splitSemi_ne_nil rest)
      | cons q qs =>
        rw [h] at hp
        rcases List.mem_cons.mp hp with h2 | h2
        · subst h2
          intro hmem
          rcases List.mem_cons.mp hmem with h3 | h3
          · exact hc h3.symm
          · exact ih q (h ▸ List.mem_cons_self q qs) h3
        · exact ih p (h ▸ List.mem_cons_of_mem q h2)

theorem splitSemi_no_semi (l : List Char) (h : ';' ∉ l) : splitSemi l = [l] := by
  induction l with
  | nil => simp [splitSemi]
  | cons c rest ih =>
    have hc : c ≠ ';' := fun hcc => h (hcc ▸ List.mem_cons_self c rest)
    have hr : ';' ∉ rest := fun hm => h (List.mem_cons_of_mem c hm)
    simp only [splitSemi, if_neg (fun hcc => hc hcc)]
    rw [ih hr]

theorem mem_dropWhile {p : Char → Bool} {a : Char} :
    ∀ {l : List Char}, a ∈ l.dropWhile p → a ∈ l := by
  intro l
  induction l with
  | nil => intro h; simp at h
  | cons c rest ih =>
    intro h
    by_cases hc : p c
    · rw [List.dropWhile_cons_of_pos hc] at h
      exact List.mem_cons_of_mem c (ih h)
    · rw [List.dropWhile_cons_of_neg hc] at h
      exact h

theorem mem_stripEnds {p : Char → Bool} {a : Char} {l : List Char}
    (h : a ∈ stripEnds p l) : a ∈ l := by
  unfold stripEnds at h
  rw [List.mem_reverse] at h
  have h2 := mem_dropWhile h
  rw [List.mem_reverse] at h2
  exact mem_dropWhile h2

theorem dropWhile_idem (p : Char → Bool) (l : List Char) :
    (l.dropWhile p).dropWhile p = l.dropWhile p := by
  induction l with
  | nil => simp
  | cons c rest ih =>
    by_cases hc : p c
    · rw [List.dropWhile_cons_of_pos hc]; exact ih
    · rw [List.dropWhile_cons_of_neg hc, List.dropWhile_cons_of_neg hc]

theorem dropWhile_decomp (p : Char → Bool) (l : List Char) :
    ∃ t, l = t ++ l.dropWhile p := by
  induction l with
  | nil => exact ⟨[], rfl⟩
  | cons c rest ih =>
    by_cases hc : p c
    · rcases ih with ⟨t, ht⟩
      exact ⟨c :: t, by rw [List.dropWhile_cons_of_pos hc]; simpa using ht⟩
    · exact ⟨[], by rw [List.dropWhile_cons_of_neg hc]; simp⟩

theorem length_dropWhile_le (p : Char → Bool) (l : List Char) :
    (l.dropWhile p).length ≤ l.length := by
  induction l with
  | nil => simp
  | cons c rest ih =>
    by_cases hc : p c
    · rw [List.dropWhile_cons_of_pos hc]; simp; omega
    · rw [List.dropWhile_cons_of_neg hc]

theorem dropWhile_eq_self_of_prefix (p : Char → Bool) {l pre : List Char}
    (hl : l.dropWhile p = l) (hpre : pre <+: l) : pre.dropWhile p = pre := by
  cases pre with
  | nil => simp
  | cons c t =>
    have hc : p c = false := by
      rcases hpre with ⟨u, hu⟩
      by_contra hpc
      have hpc2 : p c = true := by
        cases h2 : p c with
        | false => exact absurd h2 hpc
        | true => rfl
      have hstep : l.dropWhile p = (t ++ u).dropWhile p := by
        rw [← hu, List.cons_append, List.dropWhile_cons_of_pos hpc2]
      have hlen := congrArg List.length (hl ▸ hstep)
      rw [← hu] at hlen
      simp at hlen
      have hle := length_dropWhile_le p (t ++ u)
      simp at hle
      omega
    rw [List.dropWhile_cons_of_neg (by simp [hc])]

theorem stripEnds_idem (p : Char → Bool) (l : List Char) :
    stripEnds p (stripEnds p l) = stripEnds p l := by
  set a := l.dropWhile p with ha
  have haa : a.dropWhile p = a := dropWhile_idem p l
  set b := (a.reverse.dropWhile p).reverse with hb
  have hrb : b.reverse = a.reverse.dropWhile p := by rw [hb, List.reverse_reverse]
  have hbpre : b <+: a := by
    rcases dropWhile_decomp p a.reverse with ⟨t, ht⟩
    refine ⟨t.reverse, ?_⟩
    have hrev : a.reverse.reverse = (t ++ a.reverse.dropWhile p).reverse := by rw [← ht]
    rw [List.reverse_reverse, List.reverse_append] at hrev
    rw [hrev, hb]
  have hdb : b.dropWhile p = b := dropWhile_eq_self_of_prefix p haa hbpre
  show ((b.dropWhile p).reverse.dropWhile p).reverse = b
  rw [hdb, hrb, dropWhile_idem, ← hrb, List.reverse_reverse]

theorem sanitize_sql_data_cases (x : String) :
    (sanitize_sql x).data = [] ∨
    ∃ q ∈ splitSemi (stripBlock (stripLine x.data)), (sanitize_sql x).data = pyStripL q := by
  have hd : (sanitize_sql x).data =
      ((((splitSemi (stripBlock (stripLine x.data))).map pyStripL).filter (· ≠ [])).headD []) := rfl
  cases hp : (((splitSemi (stripBlock (stripLine x.data))).map pyStripL).filter (· ≠ [])) with
  | nil => left; rw [hd, hp]; rfl
  | cons p ps =>
    right
    have hmem : p ∈ ((splitSemi (stripBlock (stripLine x.data))).map pyStripL).filter (· ≠ []) := by
      rw [hp]; exact List.mem_cons_self p ps
    have hmem2 := List.mem_of_mem_filter hmem
    rcases List.mem_map.mp hmem2 with ⟨q, hq, hpq⟩
    refine ⟨q, hq, ?_⟩
    rw [hd, hp, ← hpq]
    rfl

theorem sanitize_no_semi_aux (x : String) : ';' ∉ (sanitize_sql x).data := by
  rcases sanitize_sql_data_cases x with h | ⟨q, hq, h⟩
  · rw [h]; simp
  · rw [h]
    intro hmem
    exact mem_splitSemi_no_semi _ q hq (mem_stripEnds hmem)

theorem sanitize_stripped (x : String) :
    pyStripL (sanitize_sql x).data = (sanitize_sql x).data := by
  rcases sanitize_sql_data_cases x with h | ⟨q, _, h⟩
  · rw [h]; rfl
  · rw [h]; exact stripEnds_idem pyIsSpace q

theorem hasSub_cons_false {pat : List Char} {c : Char} {rest : List Char}
    (h : hasSub pat (c :: rest) = false) : hasSub pat rest = false := by
  rw [hasSub] at h
  simp only [Bool.or_eq_false_iff] at h
  exact h.2

theorem stripLineGoF_id (fuel : Nat) :
    ∀ l : List Char, l.length < fuel → hasSub ['-', '-'] l = false →
      stripLineGoF fuel false l = l := by
  induction fuel with
  | zero => intro l hl; omega
  | succ n ih =>
    intro l hl hsub
    cases l with
    | nil => rfl
    | cons c rest =>
      by_cases hc : c = '-'
      · subst hc
        cases rest with
        | nil => rfl
        | cons d rest2 =>
          by_cases hd : d = '-'
          · subst hd
            exfalso
            rw [hasSub] at hsub
            simp [List.isPrefixOf] at hsub
          · show stripLineGoF (n + 1) false ('-' :: d :: rest2) = _
            have : stripLineGoF (n + 1) false ('-' :: d :: rest2) =
                '-' :: stripLineGoF n false (d :: rest2) := by
              simp [stripLineGoF, hd]
            rw [this, ih (d :: rest2) (by simp at hl ⊢; omega) (hasSub_cons_false hsub)]
      · have : stripLineGoF (n + 1) false (c :: rest) =
            c :: stripLineGoF n false rest := by
          simp [stripLineGoF, hc]
        rw [this, ih rest (by simp at hl ⊢; omega) (hasSub_cons_false hsub)]

theorem stripLine_id (l : List Char) (h : hasSub ['-', '-'] l = false) :
    stripLine l = l :=
  stripLineGoF_id (l.length + 1) l (by omega) h

theorem stripBlockGoF_id (fuel : Nat) :
    ∀ l : List Char, l.length < fuel → hasSub ['/', '*'] l = false →
      stripBlockGoF fuel l = l := by
  induction fuel with
  | zero => intro l hl; omega
  | succ n ih =>
    intro l hl hsub
    cases l with
    | nil => rfl
    | cons c rest =>
      by_cases hc : c = '/'
      · subst hc
        cases rest with
        | nil => rfl
        | cons d rest2 =>
          by_cases hd : d = '*'
          · subst hd
            exfalso
            rw [hasSub] at hsub
            simp [List.isPrefixOf] at hsub
          · have : stripBlockGoF (n + 1) ('/' :: d :: rest2) =
                '/' :: stripBlockGoF n (d :: rest2) := by
              simp [stripBlockGoF, hd]
            rw [this, ih (d :: rest2) (by simp at hl ⊢; omega) (hasSub_cons_false hsub)]
      · have : stripBlockGoF (n + 1) (c :: rest) =
            c :: stripBlockGoF n rest := by
          simp [stripBlockGoF, hc]
        rw [this, ih rest (by simp at hl ⊢; omega) (hasSub_cons_false hsub)]

theorem stripBlock_id (l : List Char) (h : hasSub ['/', '*'] l = false) :
    stripBlock l = l :=
  stripBlockGoF_id (l.length + 1) l (by omega) h

theorem sanitize_fixpoint (y : String)
    (hsemi : ';' ∉ y.data) (hstrip : pyStripL y.data = y.data)
    (h1 : hasSub ['-', '-'] y.data = false) (h2 : hasSub ['/', '*'] y.data = false) :
    sanitize_sql y = y := by
  have hd : sanitize_sql y =
      String.mk ((((splitSemi (stripBlock (stripLine y.data))).map pyStripL).filter
        (· ≠ [])).headD []) := rfl
  rw [hd, stripLine_id _ h1, stripBlock_id _ h2, splitSemi_no_semi _ hsemi]
  by_cases hy : y.data = []
  · have hempty : y = String.mk [] := by
      have : String.mk y.data = y := rfl
      rw [← this, hy]
    rw [hy, hempty]
    rfl
  · have hmap : ([y.data].map pyStripL) = [y.data] := by
      simp [hstrip]
    rw [hmap]
    have hfil : ([y.data].filter (· ≠ [])) = [y.data] := by
      simp [hy]
    rw [hfil]
    rfl

theorem contains_semi_of_mem {l : List Char} (h : ';' ∈ l) : l.contains ';' = true := by
  exact List.elem_eq_true_of_mem h

theorem not_mem_of_contains_false {l : List Char} (h : l.contains ';' = false) :
    ';' ∉ l := by
  intro hm
  rw [contains_semi_of_mem hm] at h
  exact Bool.noConfusion h

theorem numStatements_firstStmtPy (x : String) : numStatements (firstStmtPy x) ≤ 1 := by
  unfold firstStmtPy
  by_cases hc : x.data.contains ';' = true
  · rw [if_pos hc]
    cases hp : (((splitSemi x.data).map pyStripL).filter (· ≠ [])) with
    | nil =>
      unfold numStatements
      rw [hp]
      simp
    | cons p ps =>
      have hmem : p ∈ ((splitSemi x.data).map pyStripL).filter (· ≠ []) := by
        rw [hp]; exact List.mem_cons_self p ps
      have hmem2 := List.mem_of_mem_filter hmem
      rcases List.mem_map.mp hmem2 with ⟨q, hq, hpq⟩
      have hnosemi : ';' ∉ p := by
        intro hm
        exact mem_splitSemi_no_semi _ q hq (mem_stripEnds (hpq ▸ hm))
      unfold numStatements
      have hdata : (String.mk p).data = p := rfl
      rw [hdata, splitSemi_no_semi _ hnosemi]
      exact le_trans (List.length_filter_le _ _) (by simp)
  · rw [if_neg hc]
    have hns : ';' ∉ x.data := by
      intro hm
      exact hc (contains_semi_of_mem hm)
    unfold numStatements
    rw [splitSemi_no_semi _ hns]
    exact le_trans (List.length_filter_le _ _) (by simp)

/-- Case analysis of the optimization pipeline body: the returned string
is either accepted by the validator or is exactly the cleaned input. -/
theorem optimizePipeline_safe_or_cleaned (raw cleaned : String) :
    (validate_sql_safe (optimizePipeline raw cleaned)).1 = true ∨
      optimizePipeline raw cleaned = cleaned := by
  unfold optimizePipeline
  dsimp only
  generalize sanitize_sql (optPost raw cleaned) = S
  by_cases hv : (validate_sql_safe S).1 = true
  · rw [if_pos hv]
    by_cases hshort : S = "" ∨ S.length < 20
    · rw [if_pos hshort]; right; rfl
    · rw [if_neg hshort]; left; exact hv
  · rw [if_neg hv]; right; rfl

/-! ## Claims -/

/-- C1: for every input and schema text (and every provider-key state and
LLM oracle behavior), whenever optimize_sql returns a string, either
validate_sql_safe accepts that string or the string is exactly the
sanitized input (the input stripped of surrounding whitespace and
backticks); a rewrite rejected by the safety validator is never
surfaced. -/
theorem optimize_sql_safe_or_input (hk : Bool) (llm : Option String) (x s r : String)
    (h : optimize_sql hk llm x s = .ok r) :
    (validate_sql_safe r).1 = true ∨ r = cleanInput x := by
  unfold optimize_sql at h
  by_cases hk0 : hk = false
  · rw [if_pos hk0] at h
    exact absurd h (by simp)
  · rw [if_neg hk0] at h
    dsimp only at h
    by_cases hc : cleanInput x = ""
    · rw [if_pos hc] at h
      exact absurd h (by simp)
    · rw [if_neg hc] at h
      cases llm with
      | none =>
        right
        exact (Except.ok.inj h).symm
      | some raw =>
        have hr : r = optimizePipeline raw (cleanInput x) := (Except.ok.inj h).symm
        rw [hr]
        exact optimizePipeline_safe_or_cleaned raw (cleanInput x)

/-- C1 witness: a concrete run through the exception fallback path. -/
theorem optimize_sql_safe_or_input_witness :
    (validate_sql_safe "SELECT a FROM t").1 = true ∨
      "SELECT a FROM t" = cleanInput "SELECT a FROM t" :=
  optimize_sql_safe_or_input true none "SELECT a FROM t" "" "SELECT a FROM t" (by decide)

/-- C2 counterexample: DELETE occurs as a whole word in the input (the
word search of the model itself finds it in the uppercased text), in a
trailing statement after a semicolon, yet validate_sql_safe returns true,
because sanitization discards everything after the first semicolon before
the keyword check runs. -/
theorem validate_passes_trailing_delete :
    wordSearch "DELETE".data none ("SELECT 1; DELETE FROM t".data.map Char.toUpper) = true ∧
      validate_sql_safe "SELECT 1; DELETE FROM t" = (true, "") := by decide

/-- C2 amended: for every SQL string whose sanitized form (first
statement, comments removed) contains DELETE or UPDATE as a whole word in
any letter case, validate_sql_safe returns false; occurrences removed by
sanitization (in comments or in statements after the first semicolon) are
not checked. -/
theorem validate_rejects_dangerous_sanitized (s : String)
    (h : contains_dangerous (sanitize_sql s) = true) :
    (validate_sql_safe s).1 = false := by
  unfold validate_sql_safe
  dsimp only
  by_cases hc : sanitize_sql s = ""
  · rw [if_pos hc]
  · rw [if_neg hc, if_pos h]

/-- C2 witness: a plain DELETE statement is rejected. -/
theorem validate_rejects_dangerous_sanitized_witness :
    (validate_sql_safe "DELETE FROM t").1 = false :=
  validate_rejects_dangerous_sanitized "DELETE FROM t" (by decide)

/-- C3 counterexample: on an input that is empty after stripping, the
guard raise of optimize_sql sits outside the try block and the ValueError
propagates to the caller (an error result), contradicting the claim that
optimize_sql never propagates an exception. -/
theorem optimize_sql_raises_on_empty :
    optimize_sql true none "" "" = .error "Empty SQL provided for optimization" := by decide

/-- C3 amended: apart from the two guard raises outside the try block
(missing OPENAI_API_KEY and input empty after stripping whitespace and
backticks), optimize_sql never propagates an exception: with the key
configured and a non-empty cleaned input, for every LLM oracle behavior
(including any exception, modelled as the none oracle) the call returns a
value. -/
theorem optimize_sql_no_uncaught (llm : Option String) (x s : String)
    (h : cleanInput x ≠ "") :
    ∃ r, optimize_sql true llm x s = .ok r := by
  cases llm with
  | none =>
    refine ⟨cleanInput x, ?_⟩
    unfold optimize_sql
    rw [if_neg (by simp : ¬(true = false))]
    dsimp only
    rw [if_neg h]
  | some raw =>
    refine ⟨optimizePipeline raw (cleanInput x), ?_⟩
    unfold optimize_sql
    rw [if_neg (by simp : ¬(true = false))]
    dsimp only
    rw [if_neg h]

/-- C3 witness: a concrete call with a failing LLM returns a value. -/
theorem optimize_sql_no_uncaught_witness :
    ∃ r, optimize_sql true none "SELECT 1" "" = .ok r :=
  optimize_sql_no_uncaught none "SELECT 1" "" (by decide)

/-- C9: on the fallback paths of optimize_sql the returned value is the
input stripped of surrounding whitespace and backticks, not the original
argument verbatim: universally on the caught-exception path, and
concretely on the validation-rejection path, where the input with
surrounding whitespace comes back stripped. -/
theorem optimize_sql_fallback_value (x s : String) (h : cleanInput x ≠ "") :
    optimize_sql true none x s = .ok (cleanInput x) ∧
      optimize_sql true (some "DELETE FROM a_sufficiently_long_t") "  SELECT a FROM t  " "" =
        .ok "SELECT a FROM t" := by
  constructor
  · unfold optimize_sql
    rw [if_neg (by simp : ¬(true = false))]
    dsimp only
    rw [if_neg h]
  · decide

/-- C9 witness: an input wrapped in whitespace and backticks comes back as
the stripped core on the exception fallback path. -/
theorem optimize_sql_fallback_value_witness :
    optimize_sql true none " `SELECT 1` " "" = .ok (cleanInput " `SELECT 1` ") ∧
      optimize_sql true (some "DELETE FROM a_sufficiently_long_t") "  SELECT a FROM t  " "" =
        .ok "SELECT a FROM t" :=
  optimize_sql_fallback_value " `SELECT 1` " "" (by decide)

/-- C6 counterexample: comment removal splices the two dash characters
around a block comment into a line-comment marker, so the sanitized output
contains comment syntax. -/
theorem sanitize_sql_comment_splice :
    sanitize_sql "-/*x*/-" = "--" ∧
      hasSub ['-', '-'] (sanitize_sql "-/*x*/-").data = true := by decide

/-- C6 amended: the output of sanitize_sql always contains at most one
statement (no semicolon character remains); the no-comment-syntax half of
the claim fails because comment removal can splice new comment markers out
of the surrounding text. -/
theorem sanitize_sql_single_statement (x : String) : ';' ∉ (sanitize_sql x).data :=
  sanitize_no_semi_aux x

/-- C7 counterexample: sanitizing a string whose block-comment removal
splices a line-comment marker is not idempotent: the first pass produces
the marker, the second pass removes it. -/
theorem sanitize_sql_not_idempotent :
    sanitize_sql (sanitize_sql "-/*y*/-") ≠ sanitize_sql "-/*y*/-" := by decide

/-- C7 amended: sanitize_sql is idempotent on every input whose sanitized
output contains neither a line-comment marker nor a block-comment opener
(the only way a second pass can differ is through such spliced markers). -/
theorem sanitize_sql_idempotent_no_markers (x : String)
    (h1 : hasSub ['-', '-'] (sanitize_sql x).data = false)
    (h2 : hasSub ['/', '*'] (sanitize_sql x).data = false) :
    sanitize_sql (sanitize_sql x) = sanitize_sql x :=
  sanitize_fixpoint (sanitize_sql x) (sanitize_no_semi_aux x) (sanitize_stripped x) h1 h2

/-- C7 witness: idempotence on a stacked-statement input without comment
markers. -/
theorem sanitize_sql_idempotent_no_markers_witness :
    sanitize_sql (sanitize_sql "SELECT a FROM t; DROP TABLE t") =
      sanitize_sql "SELECT a FROM t; DROP TABLE t" :=
  sanitize_sql_idempotent_no_markers "SELECT a FROM t; DROP TABLE t" (by decide) (by decide)

/-- C8 counterexample: the heuristic optimizer is not idempotent: one
re.sub pass collapses a triple DISTINCT to a double (non-overlapping
leftmost replacement), and a second pass collapses further. -/
theorem heuristic_not_idempotent :
    _heuristic_optimize_sql (_heuristic_optimize_sql "DISTINCT DISTINCT DISTINCT") ≠
      _heuristic_optimize_sql "DISTINCT DISTINCT DISTINCT" := by decide

/-- C8 amended: when none of the five rewrite rules changes the stripped
input, the heuristic optimizer returns the input stripped of surrounding
whitespace (so unchanged exactly when the input carries no surrounding
whitespace); full idempotence fails, as repeated keyword runs collapse
further on a second pass. -/
theorem heuristic_noop_returns_stripped (x : String)
    (h1 : parenStripL (pyStripL x.data) = pyStripL x.data)
    (h2 : hstep2 (pyStripL x.data) = pyStripL x.data)
    (h3 : hstep3 (pyStripL x.data) = pyStripL x.data)
    (h4 : hstep4 (pyStripL x.data) = pyStripL x.data)
    (h5 : hstep5 (pyStripL x.data) = pyStripL x.data) :
    _heuristic_optimize_sql x = String.mk (pyStripL x.data) := by
  unfold _heuristic_optimize_sql
  dsimp only
  rw [h1, h2, h3, h4, h5]
  by_cases hx : pyStripL x.data = x.data
  · rw [if_neg (by simp [hx] : ¬pyStripL x.data ≠ x.data), hx]
  · rw [if_pos hx]

/-- C8 witness: a statement none of the rules touches. -/
theorem heuristic_noop_returns_stripped_witness :
    _heuristic_optimize_sql "SELECT col FROM tbl" =
      String.mk (pyStripL "SELECT col FROM tbl".data) :=
  heuristic_noop_returns_stripped "SELECT col FROM tbl"
    (by decide) (by decide) (by decide) (by decide) (by decide)

/-- C10: keyword blocking is purely textual: a statement whose only
whole-word UPDATE occurrence sits inside a single-quoted string literal is
still rejected by validate_sql_safe with the blocked-keyword reason. -/
theorem validate_blocks_quoted_keyword :
    validate_sql_safe ("SELECT " ++ String.mk [Char.ofNat 39] ++ "UPDATE" ++
        String.mk [Char.ofNat 39] ++ " AS w FROM t") =
      (false, "Statement contains a blocked keyword (DELETE/UPDATE).") := by decide

/-- C4 counterexample: when the OpenAI adapter fails and the Anthropic
adapter produces a multi-statement text, generate_sql returns it with the
semicolon and the second statement intact (the secondary adapters never
split on semicolons). -/
theorem generate_sql_multistatement_passthrough :
    generate_sql false false (.error "x") true (.error "boom")
        true (some "SELECT 1; DROP TABLE t") false none false false none none =
      .ok "SELECT 1; DROP TABLE t" ∧
      ("SELECT 1; DROP TABLE t").data.contains ';' = true := by decide

/-- C4 amended: only the OpenAI path of generate_sql enforces the
single-statement contract: every string it returns successfully contains
at most one non-empty statement; the Anthropic, Gemini and LLaMA paths
only strip whitespace and backticks, and the LangChain path only strips
whitespace, so those paths can surface multi-statement strings. -/
theorem generate_sql_openai_single_statement (k : Bool) (raw : Except String String)
    (s : String) (h : generate_sql_openai k raw = .ok s) : numStatements s ≤ 1 := by
  unfold generate_sql_openai at h
  by_cases hk : k = false
  · rw [if_pos hk] at h
    exact absurd h (by simp)
  · rw [if_neg hk] at h
    cases raw with
    | error e => exact absurd h (by simp)
    | ok t =>
      dsimp only at h
      by_cases he : firstStmtPy (cleanInput t) = ""
      · rw [if_pos he] at h
        exact absurd h (by simp)
      · rw [if_neg he] at h
        have hs : s = firstStmtPy (cleanInput t) := (Except.ok.inj h).symm
        rw [hs]
        exact numStatements_firstStmtPy (cleanInput t)

/-- C4 witness: the OpenAI path truncates a two-statement reply to its
first statement. -/
theorem generate_sql_openai_single_statement_witness :
    numStatements "SELECT 1" ≤ 1 :=
  generate_sql_openai_single_statement true (.ok "SELECT 1; SELECT 2") "SELECT 1" (by decide)

set_option maxRecDepth 100000 in
/-- C5 counterexample: every provider is attempted and fails with a quota
error (the OpenAI adapter raises its quota-classified error, the
Anthropic, Gemini and LLaMA adapters swallow their exceptions internally
and return None), yet the aggregated message contains no entry for
Anthropic, Gemini or LLaMA: only raising paths contribute failure
reasons. -/
theorem generate_sql_error_omits_providers :
    generate_sql false false (.error "x") true (.error "429 insufficient_quota")
        true none true none true true none none =
      .error ("SQL generation failed across providers. Details: OpenAI:" ++
        openaiWrap "429 insufficient_quota") ∧
      hasSub "Anthropic".data ("SQL generation failed across providers. Details: OpenAI:" ++
        openaiWrap "429 insufficient_quota").data = false ∧
      hasSub "Gemini".data ("SQL generation failed across providers. Details: OpenAI:" ++
        openaiWrap "429 insufficient_quota").data = false ∧
      hasSub "LLaMA".data ("SQL generation failed across providers. Details: OpenAI:" ++
        openaiWrap "429 insufficient_quota").data = false := by decide

/-- C5 amended: when every adapter fails, generate_sql raises one
aggregated error joining with a semicolon separator only the failure
reasons of the paths that raise (here the OpenAI adapter; the secondary
adapters convert all their failures to None and contribute nothing), so
the message names only those providers. -/
theorem generate_sql_aggregated_error (lc : Except String String) (e : String) :
    generate_sql false false lc true (.error e) true none true none true true none none =
      .error ("SQL generation failed across providers. Details: " ++
        ("OpenAI:" ++ openaiWrap e)) := by
  simp [generate_sql, generate_sql_openai, generate_sql_anthropic, generate_sql_gemini,
    generate_sql_llama, nonEmptyOpt, joinSemiSp]
